import Mathlib

/-!
Verification of `include/mysqlx/common.h` of MySQL Connector/C++.

Shallow embedding conventions:
* a C++ pointer (`byte*`) is modelled as a `Nat` address, `0` standing for `NULL`;
* a C++ byte (`unsigned char`) is modelled as a `Nat`;
* the memory a `const char*` points at is modelled as the list of bytes stored
  from that address on (the C guarantee that a text is null-terminated is
  expressed by working with lists that contain a `0` byte where it matters);
* `std::string` values are modelled as lists of bytes, `std::wstring` values as
  lists of Unicode code points.
-/

/-- Model of `mysqlx::bytes` (common.h, line 145): the class extends
`std::pair<byte*, size_t>`, so a value is exactly a pointer `first` together
with a length `second`. -/
structure bytes where
  first : Nat
  second : Nat
deriving DecidableEq, Repr

/-- Model of the constructor `bytes(byte *beg_, byte *end_)` (line 150): stores
`pair(beg_, end_ - beg_)`.  Pointer subtraction is meaningful (per the
documented precondition) only when `e ≥ beg`; natural subtraction agrees with
it there. -/
def bytes.fromRange (beg e : Nat) : bytes := ⟨beg, e - beg⟩

/-- Model of the constructor `bytes(byte *beg, size_t len)` (line 154): stores
`pair(beg, len)` with no check whatsoever on `beg`. -/
def bytes.fromPtrLen (beg len : Nat) : bytes := ⟨beg, len⟩

/-- Model of C `strlen`: the number of bytes stored before the first `0`
byte. -/
def strlen (mem : List Nat) : Nat := (mem.takeWhile (fun b => b != 0)).length

/-- Model of the constructor `bytes(const char *str)` (lines 157-161): the
member initializer stores `pair((byte*)str, 0)`; the body then sets
`second = strlen(str)` only when `str` is not `NULL`.  The argument is `none`
for a `NULL` pointer and `some (addr, mem)` for a non-null pointer `addr`
whose memory contents are `mem`. -/
def bytes.fromCString : Option (Nat × List Nat) → bytes
  | none => ⟨0, 0⟩
  | some (addr, mem) => ⟨addr, strlen mem⟩

/-- Model of the default constructor `bytes()` (line 166): `pair(NULL, 0)`. -/
def bytes.default : bytes := ⟨0, 0⟩

/-- Model of `bytes::begin()` (line 171): returns `first`. -/
def bytes.begin (b : bytes) : Nat := b.first

/-- Model of `bytes::end()` (line 172): returns `first + second`. -/
def bytes.endPtr (b : bytes) : Nat := b.first + b.second

/-- Model of `bytes::length()` (line 174): returns `second`. -/
def bytes.length (b : bytes) : Nat := b.second

/-- Model of `bytes::size()` (line 175): returns `length()`. -/
def bytes.size (b : bytes) : Nat := b.length

/-- Model of `mysqlx::GUID` (common.h, line 225): its only state is the member
`char m_data[32]`, modelled as a function from indices to byte values. -/
structure GUID where
  m_data : Fin 32 → Nat

/-- One iteration structure of the loop in `GUID::set(const char*)`
(lines 229-234): `for(unsigned i=0; data[i] && i < sizeof(m_data); ++i)
m_data[i] = data[i];`.  `data` lists the bytes stored at the argument pointer
from position `i` on; reading past the end of the list is reading the `0`
terminator, which stops the loop just as a `0` byte inside the list does. -/
def setLoop (buf : Fin 32 → Nat) (data : List Nat) (i : Nat) : Fin 32 → Nat :=
  match data with
  | [] => buf
  | d :: rest =>
    if d ≠ 0 ∧ i < 32 then
      setLoop (fun j => if j.val = i then d else buf j) rest (i + 1)
    else buf

/-- Model of `GUID::set(const char *data)` (lines 229-234), acting on the
current buffer contents `buf`. -/
def GUID.set (buf : Fin 32 → Nat) (data : List Nat) : Fin 32 → Nat :=
  setLoop buf data 0

/-- Model of the default constructor `GUID()` (lines 240-243):
`memset(m_data, 0, sizeof(m_data))`. -/
def GUID.mkDefault : GUID := ⟨fun _ => 0⟩

/-- Model of the constructor `template <typename T> GUID(T data)` (line 245):
its body is just `set(data)`, so `m_data` is NOT initialized before `set`
runs; `init` is the indeterminate content the member holds when the
constructor body starts. -/
def GUID.fromText (init : Fin 32 → Nat) (data : List Nat) : GUID :=
  ⟨GUID.set init data⟩

/-- Model of `template<typename T> GUID& operator=(T data)` (line 246): the
body is `set(data)` on the current buffer, then returns the object. -/
def GUID.assign (g : GUID) (data : List Nat) : GUID :=
  ⟨GUID.set g.m_data data⟩

/-- Model of `GUID::operator std::string()` (lines 248-251):
`std::string(m_data, m_data + sizeof(m_data))`, i.e. all 32 buffer bytes. -/
def GUID.toStdString (g : GUID) : List Nat :=
  List.ofFn (fun i : Fin 32 => g.m_data i)

/-- Model of the C++ exceptions that can reach the handlers of
`CATCH_AND_WRAP` (common.h, lines 285-292): a `mysqlx::Error` carrying its
`what()` message, any other `std::exception` carrying its `what()` message, a
thrown `const char*` message, or any other thrown value (`...`), which
carries no derivable message. -/
inductive CppException where
  | mysqlxError (msg : String)
  | stdException (msg : String)
  | charPtrExn (msg : String)
  | otherExn
deriving DecidableEq, Repr

/-- Model of the `CATCH_AND_WRAP` macro (lines 285-292): the first handler
`catch (const ::mysqlx::Error&) { throw; }` re-throws a `mysqlx::Error`
unchanged; `catch (const std::exception &e)` throws `Error(e.what())`;
`catch (const char *e)` throws `Error(e)`; `catch (...)` throws
`Error("Unknown exception")`.  The function maps the incoming exception to
the exception that leaves the boundary. -/
def catchAndWrap : CppException → CppException
  | .mysqlxError m => .mysqlxError m
  | .stdException m => .mysqlxError m
  | .charPtrExn m => .mysqlxError m
  | .otherExn => .mysqlxError "Unknown exception"

/-- A Unicode code point representable in the wide encoding: a Unicode scalar
value, i.e. below `0x110000` and outside the surrogate range
`0xD800..0xDFFF`. -/
def validScalar (c : Nat) : Prop := c < 0x110000 ∧ (c < 0xD800 ∨ 0xE000 ≤ c)

instance (c : Nat) : Decidable (validScalar c) := by
  unfold validScalar
  infer_instance

/-- Modelled from the spec: the standard UTF-8 encoding of one code point
(1 to 4 bytes).  The body of `mysqlx::string::operator std::string()` is only
declared in common.h (line 107) and implemented outside the given sources;
the spec requires it to "encode the internal wide representation into a byte
sequence" handling "the full Unicode range including characters outside the
basic multilingual plane". -/
def encodeUtf8Char (c : Nat) : List Nat :=
  if c < 0x80 then [c]
  else if c < 0x800 then [0xC0 + c / 0x40, 0x80 + c % 0x40]
  else if c < 0x10000 then
    [0xE0 + c / 0x1000, 0x80 + c / 0x40 % 0x40, 0x80 + c % 0x40]
  else
    [0xF0 + c / 0x40000, 0x80 + c / 0x1000 % 0x40, 0x80 + c / 0x40 % 0x40,
      0x80 + c % 0x40]

/-- Modelled from the spec: UTF-8 encoding of a code-point sequence, the
conversion `mysqlx::string` → `std::string` whose implementation is not in
the given sources. -/
def encodeUtf8 : List Nat → List Nat
  | [] => []
  | c :: s => encodeUtf8Char c ++ encodeUtf8 s

/-- A UTF-8 continuation byte: `0x80 ≤ b < 0xC0`. -/
def contOk (b : Nat) : Bool := 0x80 ≤ b && b < 0xC0

/-- Modelled from the spec: decoding a single UTF-8 encoded code point from
the front of a byte sequence, returning the code point and the remaining
bytes, or `none` on malformed input.  This is the step function of
`decodeUtf8` below; per the spec's strict policy, truncated sequences, bad
continuation bytes, overlong encodings, encoded surrogates and out-of-range
values are rejected. -/
def decodeOne : List Nat → Option (Nat × List Nat)
  | [] => none
  | b0 :: tl =>
    if b0 < 0x80 then some (b0, tl)
    else if b0 < 0xC0 then none
    else if b0 < 0xE0 then
      match tl with
      | b1 :: tl1 =>
        if contOk b1 then
          let c := (b0 - 0xC0) * 0x40 + (b1 - 0x80)
          if 0x80 ≤ c then some (c, tl1) else none
        else none
      | [] => none
    else if b0 < 0xF0 then
      match tl with
      | b1 :: b2 :: tl2 =>
        if contOk b1 && contOk b2 then
          let c := (b0 - 0xE0) * 0x1000 + (b1 - 0x80) * 0x40 + (b2 - 0x80)
          if 0x800 ≤ c ∧ (c < 0xD800 ∨ 0xE000 ≤ c) then some (c, tl2) else none
        else none
      | _ => none
    else if b0 < 0xF8 then
      match tl with
      | b1 :: b2 :: b3 :: tl3 =>
        if contOk b1 && contOk b2 && contOk b3 then
          let c := (b0 - 0xF0) * 0x40000 + (b1 - 0x80) * 0x1000 +
            (b2 - 0x80) * 0x40 + (b3 - 0x80)
          if 0x10000 ≤ c ∧ c < 0x110000 then some (c, tl3) else none
        else none
      | _ => none
    else none

/-- A successful decoding step consumes at least one byte. -/
theorem decodeOne_length (l : List Nat) (c : Nat) (rest : List Nat)
    (h : decodeOne l = some (c, rest)) : rest.length < l.length := by
  match l with
  | [] => simp [decodeOne] at h
  | b0 :: tl =>
    unfold decodeOne at h
    repeat' split at h
    all_goals simp_all [List.length_cons]
    all_goals omega

/-- Modelled from the spec: UTF-8 decoding of a byte sequence into the wide
(code-point) representation, the conversion performed by the constructors
`string(const char*)` and `string(const std::string&)`, declared in common.h
(lines 103-104) and implemented outside the given sources.  The spec requires
that "malformed input to UTF-8 decoding ... must raise a reportable error",
modelled by the `none` result. -/
def decodeUtf8 (l : List Nat) : Option (List Nat) :=
  match h : decodeOne l with
  | some (c, rest) => (decodeUtf8 rest).map (fun cs => c :: cs)
  | none => if l.isEmpty then some [] else none
termination_by l.length
decreasing_by exact decodeOne_length l c rest h

/-- Model of an `std::ostream` write: the stream is the list of bytes written
so far, and `out << data` appends the bytes of `data`. -/
def ostreamWrite (out : List Nat) (data : List Nat) : List Nat := out ++ data

/-- The conversion `mysqlx::string::operator std::string()` (common.h,
line 107) as used by callers: produces the UTF-8 bytes of the wide value
(`encodeUtf8` is modelled from the spec, see there). -/
def stringToStdString (s : List Nat) : List Nat := encodeUtf8 s

/-- Model of `operator<<(std::ostream&, const string&)` (common.h,
lines 112-118): `const std::string utf8(str); out << utf8; return out;`. -/
def stringStreamInsert (out : List Nat) (s : List Nat) : List Nat :=
  ostreamWrite out (stringToStdString s)

/-- Model of the C++ declaration of the wide→UTF-8 conversion operator of
`mysqlx::string`: `operator std::string() const;` (common.h, line 107).  The
declaration does not carry the `explicit` keyword, which is the one fact the
field records; line 101 of the source marks making the conversions explicit
as a TODO. -/
structure ConversionDecl where
  markedExplicit : Bool
deriving DecidableEq, Repr

/-- The declared conversion `mysqlx::string` → `std::string` (common.h,
line 107): not marked `explicit`. -/
def stringToUtf8Decl : ConversionDecl := ⟨false⟩

/-- Decoding the empty byte sequence yields the empty code-point sequence. -/
theorem decodeUtf8_nil : decodeUtf8 [] = some [] := by
  rw [decodeUtf8.eq_def]
  simp [decodeOne]

/-- One unfolding step of `decodeUtf8` along a successful `decodeOne`. -/
theorem decodeUtf8_step (l : List Nat) (c : Nat) (rest : List Nat)
    (h : decodeOne l = some (c, rest)) :
    decodeUtf8 l = (decodeUtf8 rest).map (fun cs => c :: cs) := by
  rw [decodeUtf8.eq_def]
  split
  next c' rest' heq =>
    have h2 := h.symm.trans heq
    injection h2 with h2
    injection h2 with h3 h4
    subst h3; subst h4; rfl
  next heq =>
    rw [h] at heq
    exact absurd heq (by simp)

/-- Decoding recovers a single encoded scalar value and leaves the remaining
bytes untouched. -/
theorem decodeOne_encodeChar (c : Nat) (hv : validScalar c) (rest : List Nat) :
    decodeOne (encodeUtf8Char c ++ rest) = some (c, rest) := by
  obtain ⟨h1, h2⟩ := hv
  unfold encodeUtf8Char
  by_cases ha : c < 0x80
  · simp only [if_pos ha]
    simp [decodeOne, ha]
  · by_cases hb : c < 0x800
    · simp only [if_neg ha, if_pos hb, List.cons_append, List.nil_append]
      simp only [decodeOne]
      rw [if_neg (by omega), if_neg (by omega), if_pos (by omega)]
      have hco : contOk (0x80 + c % 0x40) = true := by simp [contOk]; omega
      rw [hco]
      simp only [if_true]
      rw [if_pos (by omega)]
      have hval : (0xC0 + c / 0x40 - 0xC0) * 0x40 + (0x80 + c % 0x40 - 0x80)
          = c := by omega
      rw [hval]
    · by_cases hc : c < 0x10000
      · simp only [if_neg ha, if_neg hb, if_pos hc, List.cons_append,
          List.nil_append]
        simp only [decodeOne]
        rw [if_neg (by omega), if_neg (by omega), if_neg (by omega),
          if_pos (by omega)]
        have hco1 : contOk (0x80 + c / 0x40 % 0x40) = true := by
          simp [contOk]; omega
        have hco2 : contOk (0x80 + c % 0x40) = true := by simp [contOk]; omega
        rw [hco1, hco2]
        simp only [Bool.and_self, if_true]
        have hval : (0xE0 + c / 0x1000 - 0xE0) * 0x1000 +
            (0x80 + c / 0x40 % 0x40 - 0x80) * 0x40 + (0x80 + c % 0x40 - 0x80)
            = c := by omega
        rw [hval]
        rw [if_pos (by omega)]
      · simp only [if_neg ha, if_neg hb, if_neg hc, List.cons_append,
          List.nil_append]
        simp only [decodeOne]
        rw [if_neg (by omega), if_neg (by omega), if_neg (by omega),
          if_neg (by omega), if_pos (by omega)]
        have hco1 : contOk (0x80 + c / 0x1000 % 0x40) = true := by
          simp [contOk]; omega
        have hco2 : contOk (0x80 + c / 0x40 % 0x40) = true := by
          simp [contOk]; omega
        have hco3 : contOk (0x80 + c % 0x40) = true := by simp [contOk]; omega
        rw [hco1, hco2, hco3]
        simp only [Bool.and_self, if_true]
        have hval : (0xF0 + c / 0x40000 - 0xF0) * 0x40000 +
            (0x80 + c / 0x1000 % 0x40 - 0x80) * 0x1000 +
            (0x80 + c / 0x40 % 0x40 - 0x80) * 0x40 + (0x80 + c % 0x40 - 0x80)
            = c := by omega
        rw [hval]
        rw [if_pos (by omega)]

/-- `strlen` on a stretch of non-zero bytes followed by a terminator counts
exactly the bytes before the terminator. -/
theorem strlen_terminated (pre rest : List Nat) (h : ∀ b ∈ pre, b ≠ 0) :
    strlen (pre ++ 0 :: rest) = pre.length := by
  induction pre with
  | nil => simp [strlen]
  | cons b p ih =>
    have hb : b ≠ 0 := h b (List.mem_cons_self b p)
    have hp : ∀ x ∈ p, x ≠ 0 := fun x hx => h x (List.mem_cons_of_mem b hx)
    simp only [strlen, List.cons_append, List.takeWhile_cons, List.length_cons]
    have hb' : (b != 0) = true := by simpa using hb
    rw [hb']
    simp only [List.length_cons]
    exact congrArg (fun n => n + 1) (ih hp)

/-- `setLoop` never writes a buffer position outside `[i, i + data.length)`. -/
theorem setLoop_frame (data : List Nat) (buf : Fin 32 → Nat) (i : Nat)
    (j : Fin 32) (h : j.val < i ∨ i + data.length ≤ j.val) :
    setLoop buf data i j = buf j := by
  induction data generalizing buf i with
  | nil => rfl
  | cons d rest ih =>
    unfold setLoop
    by_cases hcond : d ≠ 0 ∧ i < 32
    · rw [if_pos hcond]
      have hj : j.val ≠ i := by
        rcases h with h | h
        · omega
        · simp only [List.length_cons] at h; omega
      have h' : j.val < i + 1 ∨ (i + 1) + rest.length ≤ j.val := by
        rcases h with h | h
        · omega
        · simp only [List.length_cons] at h; omega
      rw [ih _ (i + 1) h']
      simp [hj]
    · rw [if_neg hcond]

/-- C1: for every sequence S of Unicode code points representable in the wide
encoding, decoding the UTF-8 encoding of S reproduces exactly S, including
code points outside the basic multilingual plane. -/
theorem C1_utf8_roundtrip (S : List Nat) (hv : ∀ c ∈ S, validScalar c) :
    decodeUtf8 (encodeUtf8 S) = some S := by
  induction S with
  | nil => exact decodeUtf8_nil
  | cons c S ih =>
    have hc : validScalar c := hv c (List.mem_cons_self c S)
    have hS : ∀ x ∈ S, validScalar x := fun x hx =>
      hv x (List.mem_cons_of_mem c hx)
    have hstep := decodeUtf8_step (encodeUtf8 (c :: S)) c (encodeUtf8 S)
      (decodeOne_encodeChar c hc (encodeUtf8 S))
    rw [hstep, ih hS]
    rfl

/-- C1 witness: the round trip at the concrete sequence "caf", U+00E9,
U+1F600 (one non-ASCII BMP code point and one outside the BMP). -/
theorem C1_utf8_roundtrip_witness :
    (∀ c ∈ [0x63, 0x61, 0x66, 0xE9, 0x1F600], validScalar c) ∧
      decodeUtf8 (encodeUtf8 [0x63, 0x61, 0x66, 0xE9, 0x1F600]) =
        some [0x63, 0x61, 0x66, 0xE9, 0x1F600] :=
  ⟨by decide, C1_utf8_roundtrip [0x63, 0x61, 0x66, 0xE9, 0x1F600] (by decide)⟩

/-- C2 counterexample: the `bytes(byte*, size_t)` constructor performs no
null check, so a view built from the null pointer and length 5 has length 5,
not 0 as the claim states. -/
theorem C2_null_ptr_len_counterexample : (bytes.fromPtrLen 0 5).length ≠ 0 :=
  by decide

/-- C2 amended: only the null-terminated-text constructor forces length 0 on
a null pointer; the `(pointer, length)` constructor stores the given length
unchanged, even when the pointer is null. -/
theorem C2_null_views_amended :
    (bytes.fromCString none).length = 0 ∧
      ∀ len, (bytes.fromPtrLen 0 len).length = len :=
  ⟨rfl, fun _ => rfl⟩

/-- C3: the code at the claim's failing input.  A GUID constructed from the
text "abc" does not zero-pad: the 29 bytes after "abc" keep whatever
indeterminate content `m_data` held when the uninitialized constructor body
started (here each byte set to 1), so the conversion to text is not "abc"
followed by 29 zero bytes as the claim (and the default-constructor `memset`)
intend. -/
theorem C3_fromText_no_zero_padding :
    (GUID.fromText (fun _ => 1) [97, 98, 99]).toStdString =
      [97, 98, 99] ++ List.replicate 29 1 := by decide

/-- C4: every exception crossing a `CATCH_AND_WRAP` boundary leaves as
`mysqlx::Error`: a foreign `std::exception` and a thrown `const char*` keep
their message, a message-less exception gets the fixed message
"Unknown exception", and an already-uniform `mysqlx::Error` passes through
unchanged. -/
theorem C4_catch_and_wrap_uniform :
    (∀ m, catchAndWrap (.stdException m) = .mysqlxError m) ∧
      (∀ m, catchAndWrap (.charPtrExn m) = .mysqlxError m) ∧
      catchAndWrap .otherExn = .mysqlxError "Unknown exception" ∧
      (∀ m, catchAndWrap (.mysqlxError m) = .mysqlxError m) :=
  ⟨fun _ => rfl, fun _ => rfl, rfl, fun _ => rfl⟩

/-- C5: for every byte view `end() - begin() = length()`, and a view built
from a pointer pair with `endPtr ≥ beginPtr` has length
`endPtr - beginPtr`. -/
theorem C5_end_begin_length :
    (∀ v : bytes, v.endPtr - v.begin = v.length) ∧
      ∀ beg e, beg ≤ e → (bytes.fromRange beg e).length = e - beg :=
  ⟨fun v => by simp [bytes.endPtr, bytes.begin, bytes.length],
    fun _ _ _ => rfl⟩

/-- C5 witness: the pointer-pair part at the concrete range [3, 7). -/
theorem C5_end_begin_length_witness :
    3 ≤ 7 ∧ (bytes.fromRange 3 7).length = 7 - 3 :=
  ⟨by decide, C5_end_begin_length.2 3 7 (by decide)⟩

/-- C6: a view over a non-null null-terminated text has length equal to the
number of bytes before the terminator, and a view over a null text is empty
(`begin = null`, length 0) with no error signalled. -/
theorem C6_cstring_view_length :
    (∀ addr pre rest, (∀ b ∈ pre, b ≠ 0) →
        (bytes.fromCString (some (addr, pre ++ 0 :: rest))).length =
          pre.length) ∧
      (bytes.fromCString none).length = 0 ∧
      (bytes.fromCString none).begin = 0 :=
  ⟨fun _ pre rest h => strlen_terminated pre rest h, rfl, rfl⟩

/-- C6 witness: the text "hi" (bytes 104, 105) terminated by 0 and followed
by residual memory byte 7, at address 12. -/
theorem C6_cstring_view_length_witness :
    (∀ b ∈ [104, 105], b ≠ 0) ∧
      (bytes.fromCString (some (12, [104, 105] ++ 0 :: [7]))).length = 2 :=
  ⟨by decide, C6_cstring_view_length.1 12 [104, 105] [7] (by decide)⟩

/-- C7: the code at the claim's failing point.  The conversion of
`mysqlx::string` to its UTF-8 `std::string` form is declared without the
`explicit` keyword (common.h line 107), so the conversion is available
implicitly, contrary to the claim and to the TODO on line 101 that records
the intent to make it explicit. -/
theorem C7_conversion_implicitly_available :
    stringToUtf8Decl.markedExplicit = false := rfl

/-- C8: printing an encoded string to an output stream writes exactly the
bytes of its UTF-8 conversion. -/
theorem C8_stream_renders_utf8 :
    ∀ out s, stringStreamInsert out s = out ++ stringToStdString s :=
  fun _ _ => rfl

/-- C9: every GUID, however constructed or assigned, converts to a text of
exactly 32 characters. -/
theorem C9_guid_text_length : ∀ g : GUID, g.toStdString.length = 32 :=
  fun _ => by simp [GUID.toStdString]

/-- C10: setting a GUID from a text of length n writes only buffer positions
below min(n, 32); every position at or beyond min(n, 32) keeps the value it
held before the operation. -/
theorem C10_set_frame (init : Fin 32 → Nat) (data : List Nat) (j : Fin 32)
    (h : min data.length 32 ≤ j.val) : GUID.set init data j = init j := by
  have hj := j.isLt
  have hlen : data.length ≤ j.val := by omega
  exact setLoop_frame data init 0 j (Or.inr (by omega))

/-- C10 witness: setting from the 3-byte text "abc" leaves position 5 of a
buffer filled with 7 at value 7. -/
theorem C10_set_frame_witness :
    min (List.length [97, 98, 99]) 32 ≤ (5 : Fin 32).val ∧
      GUID.set (fun _ => 7) [97, 98, 99] (5 : Fin 32) = 7 :=
  ⟨by decide, C10_set_frame (fun _ => 7) [97, 98, 99] 5 (by decide)⟩
